import Mathlib

/-
Shallow embedding of src/lib/rules/sort-imports-by-length.js.

The rule receives the ordered list of ImportDeclaration nodes of one file,
classifies each by its source path (or type-only marker), sorts each group by
rendered-text length with a stable sort, concatenates the groups, and reports
one violation (with a whole-block text fix) when the original order differs
from the canonical order.
-/

/-- One parsed import declaration as the host hands it to the rule:
`sourcePath` is `node.source.value`, `importKind` is `node.importKind`
(the string "type" marks a type-only import), `text` is
`sourceCode.getText(node)` (the rendered source text, supplied by the host as
an immutable attribute), `rangeStart`/`rangeEnd` are `node.range[0]` and
`node.range[1]`, and `id` models the JavaScript object identity of the AST
node (two distinct nodes are distinct objects even when their text agrees, so
the `!==` comparisons of the rule are structural equality on this record). -/
structure ImportStatement where
  sourcePath : String
  importKind : String
  text : String
  rangeStart : Nat
  rangeEnd : Nat
  id : Nat
deriving DecidableEq, Inhabited

/-- Predicate isThirdParty: the regex test `/^[^./@]/.test(importPath)` — the first
character exists and is none of `.`, `/`, `@`. -/
def isThirdParty (importPath : String) : Bool :=
  match importPath.data with
  | [] => false
  | c :: _ => !(c == '.' || c == '/' || c == '@')

/-- Predicate isAtImport: the regex test `/^@/.test(importPath)`. -/
def isAtImport (importPath : String) : Bool :=
  match importPath.data with
  | '@' :: _ => true
  | _ => false

/-- Predicate isSingleDotRelative: the regex test `/^\.[^.\x2f]/.test(importPath)` — a
leading dot followed by a character that is neither `.` nor `/`. -/
def isSingleDotRelative (importPath : String) : Bool :=
  match importPath.data with
  | '.' :: c :: _ => !(c == '.' || c == '/')
  | _ => false

/-- Predicate isMultiDotRelative: the regex test `/^\.\.?\x2f/.test(importPath)` — `./`
or `../` at the start of the path. -/
def isMultiDotRelative (importPath : String) : Bool :=
  match importPath.data with
  | '.' :: '/' :: _ => true
  | '.' :: '.' :: '/' :: _ => true
  | _ => false

/-- Predicate isTypeImport: `node.importKind === 'type'`. -/
def isTypeImport (node : ImportStatement) : Bool :=
  node.importKind == "type"

/-- Function getGroupType: the if/else chain of the source; the implicit JavaScript
`undefined` on fall-through is `none`. -/
def getGroupType (node : ImportStatement) : Option Nat :=
  if isThirdParty node.sourcePath then some 0
  else if isAtImport node.sourcePath then some 1
  else if isSingleDotRelative node.sourcePath then some 2
  else if isMultiDotRelative node.sourcePath then some 3
  else if isTypeImport node then some 4
  else none

/-- The five buckets `const groups = [[], [], [], [], []]` of `groupImports`. -/
structure FiveGroups where
  g0 : List ImportStatement
  g1 : List ImportStatement
  g2 : List ImportStatement
  g3 : List ImportStatement
  g4 : List ImportStatement
deriving DecidableEq, Inhabited

/-- The body of the `forEach` of `groupImports`: push the node onto the bucket
of the first matching predicate (push appends at the end of the bucket). -/
def pushNode (gs : FiveGroups) (node : ImportStatement) : FiveGroups :=
  if isThirdParty node.sourcePath then { gs with g0 := gs.g0 ++ [node] }
  else if isAtImport node.sourcePath then { gs with g1 := gs.g1 ++ [node] }
  else if isSingleDotRelative node.sourcePath then { gs with g2 := gs.g2 ++ [node] }
  else if isMultiDotRelative node.sourcePath then { gs with g3 := gs.g3 ++ [node] }
  else if isTypeImport node then { gs with g4 := gs.g4 ++ [node] }
  else gs

/-- Function groupImports: fill the five buckets in input order, then
`groups.filter((group) => group.length > 0)`. -/
def groupImports (importNodes : List ImportStatement) : List (List ImportStatement) :=
  let gs := importNodes.foldl pushNode ⟨[], [], [], [], []⟩
  ([gs.g0, gs.g1, gs.g2, gs.g3, gs.g4]).filter (fun group => group.length > 0)

/-- The comparator `(a, b) => aLength - bLength` of the source orders by
ascending rendered-text length. -/
def lenLE (a b : ImportStatement) : Prop :=
  a.text.length ≤ b.text.length

instance : DecidableRel lenLE :=
  fun a b => inferInstanceAs (Decidable (a.text.length ≤ b.text.length))

instance : IsTotal ImportStatement lenLE :=
  ⟨fun a b => Nat.le_total a.text.length b.text.length⟩

instance : IsTrans ImportStatement lenLE :=
  ⟨fun _ _ _ => Nat.le_trans⟩

/-- Sorting step `group.slice().sort((a, b) => aLength - bLength)`: `Array.prototype.sort`
is a stable sort, modelled as a stable insertion sort on `lenLE`. -/
def sortGroup (group : List ImportStatement) : List ImportStatement :=
  List.insertionSort lenLE group

/-- The reorder loop of `create`: start from `sortedImports = []` and
`sortedImports = sortedImports.concat(sortedGroup)` per group, yielding
CanonicalOrder. -/
def sortedImportsOf (importNodes : List ImportStatement) : List ImportStatement :=
  (groupImports importNodes).foldl (fun sortedImports group => sortedImports ++ sortGroup group) []

/-- JavaScript `String.prototype.trim` on the rendered texts used here:
strip leading and trailing whitespace characters. -/
def trimJS (s : String) : String :=
  ⟨((s.data.dropWhile Char.isWhitespace).reverse.dropWhile Char.isWhitespace).reverse⟩

/-- One step of the `forEach` of `generateFixedCode`: the accumulator carries
the code built so far, `currentGroupType` (`none` models the initial
JavaScript `null`, `some g` a stored `getGroupType` result), and the running
index. -/
def genStep (acc : String × Option (Option Nat) × Nat) (node : ImportStatement) :
    String × Option (Option Nat) × Nat :=
  let groupType := getGroupType node
  let code := if acc.2.1 ≠ some groupType ∧ acc.2.2 ≠ 0 then acc.1 ++ "\n" else acc.1
  (code ++ node.text ++ "\n", some groupType, acc.2.2 + 1)

/-- Function generateFixedCode: append each rendered text
plus a newline, inserting one extra newline when the group type changes (and
the statement is not first), then `code.trim()`. -/
def generateFixedCode (sortedImports : List ImportStatement) : String :=
  trimJS (sortedImports.foldl genStep ("", none, 0)).1

/-- The diagnostic of `context.report`: the anchor node, the message, the
replacement range `[firstImport.range[0], lastImport.range[1]]`, and the
replacement text. -/
structure Report where
  node : ImportStatement
  message : String
  rangeStart : Nat
  rangeEnd : Nat
  fixText : String
deriving DecidableEq, Inhabited

/-- The comparison loop of `create`: walk `importNodes[i] !== sortedImports[i]`
(`sortedImports[i]` is `undefined` past the end, which never equals a node)
and report the index of the first mismatch; the `break` makes it the first. -/
def firstMismatch : List ImportStatement → List ImportStatement → Option Nat
  | [], _ => none
  | a :: as, canon =>
    match canon with
    | [] => some 0
    | b :: bs => if a = b then (firstMismatch as bs).map (· + 1) else some 0

/-- The `Program` handler of `create`: return immediately on an empty import
list, otherwise group, sort, compare with the original order, and report one
violation anchored at the first mismatched statement, with the whole-block
fix. -/
def analyze (importNodes : List ImportStatement) : Option Report :=
  if importNodes.length = 0 then none
  else
    let sortedImports := sortedImportsOf importNodes
    match firstMismatch importNodes sortedImports with
    | none => none
    | some i =>
      some
        { node := importNodes.getD i default
          message := "Imports are not sorted correctly."
          rangeStart := (importNodes.headD default).rangeStart
          rangeEnd := (importNodes.getLastD default).rangeEnd
          fixText := generateFixedCode sortedImports }

/-- Modelled from the spec: the host fixer's `replaceTextRange` replaces the
byte range from `start` to `stop` of the file with the replacement text,
leaving the rest of the file untouched. -/
def applyFix (file : List Char) (start stop : Nat) (replacement : List Char) : List Char :=
  file.take start ++ replacement ++ file.drop stop

/-- Rendering rule as the specification words it: each statement's rendered
text is followed by a line break, and a statement whose category differs from
the immediately preceding emitted statement's category gets one blank line
before it; `prev` is the category of the preceding emitted statement. -/
def renderSpecRest (prev : Option Nat) : List ImportStatement → String
  | [] => ""
  | node :: rest =>
    (if getGroupType node ≠ prev then "\n" else "") ++ node.text ++ "\n"
      ++ renderSpecRest (getGroupType node) rest

/-- Rendering per the specification: the first statement gets no separator,
each later statement gets a blank line exactly when its category differs from
its predecessor's, and the final text is trimmed. -/
def renderSpec : List ImportStatement → String
  | [] => ""
  | node :: rest => trimJS (node.text ++ "\n" ++ renderSpecRest (getGroupType node) rest)

/-- Concrete third-party import used in the concrete checks below. -/
def exReact : ImportStatement :=
  ⟨"react", "value", "import a from 'react'", 0, 21, 1⟩

/-- Concrete third-party import with the same text length as `exReact`. -/
def exRedux : ImportStatement :=
  ⟨"redux", "value", "import b from 'redux'", 22, 43, 2⟩

/-- Concrete scoped import. -/
def exScoped : ImportStatement :=
  ⟨"@scope/pkg", "value", "import s from '@scope/pkg'", 44, 70, 3⟩

/-- Concrete relative import whose path starts with a dot and a slash. -/
def exRel : ImportStatement :=
  ⟨"./a", "value", "import r from './a'", 10, 29, 4⟩

/-- Concrete import whose path starts with a slash: it matches none of the
path predicates and is not type-only. -/
def exAbs : ImportStatement :=
  ⟨"/abs", "value", "import x from '/abs'", 0, 20, 5⟩

/-- Concrete import with path "./x", the example of the single-dot claim. -/
def exDotX : ImportStatement :=
  ⟨"./x", "value", "import d from './x'", 0, 19, 6⟩

/-- Concrete third-party import placed after `exRel` in the violating list. -/
def exReactLate : ImportStatement :=
  ⟨"react", "value", "import r from 'react'", 30, 51, 7⟩

/-- A two-statement list whose original order violates the canonical order:
the relative import precedes the third-party one. -/
def exBadList : List ImportStatement :=
  [exRel, exReactLate]

/-- The statements that the classification chain sends to bucket `i`, in
input order. -/
def bucket (i : Nat) (importNodes : List ImportStatement) : List ImportStatement :=
  importNodes.filter (fun n => getGroupType n == some i)

theorem getGroupType_cases (node : ImportStatement) :
    getGroupType node = none ∨ getGroupType node = some 0 ∨ getGroupType node = some 1 ∨
      getGroupType node = some 2 ∨ getGroupType node = some 3 ∨ getGroupType node = some 4 := by
  unfold getGroupType
  split_ifs <;> simp

theorem g0_pushNode (gs : FiveGroups) (node : ImportStatement) :
    (pushNode gs node).g0 = if getGroupType node == some 0 then gs.g0 ++ [node] else gs.g0 := by
  unfold pushNode getGroupType
  split_ifs <;> simp_all

theorem g1_pushNode (gs : FiveGroups) (node : ImportStatement) :
    (pushNode gs node).g1 = if getGroupType node == some 1 then gs.g1 ++ [node] else gs.g1 := by
  unfold pushNode getGroupType
  split_ifs <;> simp_all

theorem g2_pushNode (gs : FiveGroups) (node : ImportStatement) :
    (pushNode gs node).g2 = if getGroupType node == some 2 then gs.g2 ++ [node] else gs.g2 := by
  unfold pushNode getGroupType
  split_ifs <;> simp_all

theorem g3_pushNode (gs : FiveGroups) (node : ImportStatement) :
    (pushNode gs node).g3 = if getGroupType node == some 3 then gs.g3 ++ [node] else gs.g3 := by
  unfold pushNode getGroupType
  split_ifs <;> simp_all

theorem g4_pushNode (gs : FiveGroups) (node : ImportStatement) :
    (pushNode gs node).g4 = if getGroupType node == some 4 then gs.g4 ++ [node] else gs.g4 := by
  unfold pushNode getGroupType
  split_ifs <;> simp_all

theorem foldl_pushNode (l : List ImportStatement) (gs : FiveGroups) :
    l.foldl pushNode gs =
      ⟨gs.g0 ++ bucket 0 l, gs.g1 ++ bucket 1 l, gs.g2 ++ bucket 2 l,
        gs.g3 ++ bucket 3 l, gs.g4 ++ bucket 4 l⟩ := by
  induction l generalizing gs with
  | nil => simp [bucket]
  | cons x xs ih =>
    rw [List.foldl_cons, ih]
    rcases getGroupType_cases x with h | h | h | h | h | h <;>
      simp [g0_pushNode, g1_pushNode, g2_pushNode, g3_pushNode, g4_pushNode,
        bucket, List.filter_cons, h]

theorem groupImports_eq (l : List ImportStatement) :
    groupImports l =
      ([bucket 0 l, bucket 1 l, bucket 2 l, bucket 3 l, bucket 4 l]).filter
        (fun group => group.length > 0) := by
  unfold groupImports
  rw [foldl_pushNode]
  simp

theorem foldl_append_sortGroup (L : List (List ImportStatement)) (acc : List ImportStatement) :
    L.foldl (fun sortedImports group => sortedImports ++ sortGroup group) acc =
      acc ++ (L.map sortGroup).flatten := by
  induction L generalizing acc with
  | nil => simp
  | cons g L ih => simp [ih]

theorem filter_nonempty_flatten (L : List (List ImportStatement)) :
    ((L.filter (fun group => group.length > 0)).map sortGroup).flatten =
      (L.map sortGroup).flatten := by
  induction L with
  | nil => rfl
  | cons g L ih =>
    rw [List.filter_cons]
    by_cases hg : g.length > 0
    · simp [hg, ih]
    · have : g = [] := List.length_eq_zero.mp (Nat.eq_zero_of_not_pos hg)
      subst this
      simpa [sortGroup, List.insertionSort] using ih

theorem sortedImportsOf_eq (l : List ImportStatement) :
    sortedImportsOf l =
      sortGroup (bucket 0 l) ++ (sortGroup (bucket 1 l) ++ (sortGroup (bucket 2 l) ++
        (sortGroup (bucket 3 l) ++ sortGroup (bucket 4 l)))) := by
  unfold sortedImportsOf
  rw [groupImports_eq, foldl_append_sortGroup, filter_nonempty_flatten]
  simp

theorem mem_bucket {x : ImportStatement} {i : Nat} {l : List ImportStatement} :
    x ∈ bucket i l ↔ x ∈ l ∧ getGroupType x = some i := by
  simp [bucket]

theorem mem_sortGroup {x : ImportStatement} {g : List ImportStatement} :
    x ∈ sortGroup g ↔ x ∈ g :=
  List.mem_insertionSort lenLE

theorem sortGroup_perm (g : List ImportStatement) : (sortGroup g).Perm g :=
  List.perm_insertionSort lenLE g

theorem sortGroup_sorted (g : List ImportStatement) : List.Sorted lenLE (sortGroup g) :=
  List.sorted_insertionSort lenLE g

theorem sortGroup_of_sorted {g : List ImportStatement} (h : List.Sorted lenLE g) :
    sortGroup g = g :=
  h.insertionSort_eq

theorem bucket_eq_self_of {i : Nat} {g : List ImportStatement}
    (h : ∀ x ∈ g, getGroupType x = some i) :
    bucket i g = g := by
  rw [bucket, List.filter_eq_self]
  intro a ha
  simp [h a ha]

theorem bucket_eq_nil_of {i j : Nat} (hij : i ≠ j) {g : List ImportStatement}
    (h : ∀ x ∈ g, getGroupType x = some j) :
    bucket i g = [] := by
  rw [bucket, List.filter_eq_nil_iff]
  intro a ha
  simp [h a ha, hij.symm]

theorem bucket_append (i : Nat) (l₁ l₂ : List ImportStatement) :
    bucket i (l₁ ++ l₂) = bucket i l₁ ++ bucket i l₂ := by
  simp [bucket]

theorem mem_sortGroup_bucket {x : ImportStatement} {i : Nat} {l : List ImportStatement}
    (hx : x ∈ sortGroup (bucket i l)) : getGroupType x = some i :=
  (mem_bucket.mp (mem_sortGroup.mp hx)).2

theorem bucket_sortedImportsOf (l : List ImportStatement) (i : Nat) (hi : i < 5) :
    bucket i (sortedImportsOf l) = sortGroup (bucket i l) := by
  have hmem : ∀ j, ∀ x ∈ sortGroup (bucket j l), getGroupType x = some j :=
    fun j x hx => mem_sortGroup_bucket hx
  rw [sortedImportsOf_eq, bucket_append, bucket_append, bucket_append, bucket_append]
  interval_cases i
  · rw [bucket_eq_self_of (hmem 0), bucket_eq_nil_of (show 0 ≠ 1 by decide) (hmem 1),
      bucket_eq_nil_of (show 0 ≠ 2 by decide) (hmem 2),
      bucket_eq_nil_of (show 0 ≠ 3 by decide) (hmem 3),
      bucket_eq_nil_of (show 0 ≠ 4 by decide) (hmem 4)]
    simp
  · rw [bucket_eq_self_of (hmem 1), bucket_eq_nil_of (show 1 ≠ 0 by decide) (hmem 0),
      bucket_eq_nil_of (show 1 ≠ 2 by decide) (hmem 2),
      bucket_eq_nil_of (show 1 ≠ 3 by decide) (hmem 3),
      bucket_eq_nil_of (show 1 ≠ 4 by decide) (hmem 4)]
    simp
  · rw [bucket_eq_self_of (hmem 2), bucket_eq_nil_of (show 2 ≠ 0 by decide) (hmem 0),
      bucket_eq_nil_of (show 2 ≠ 1 by decide) (hmem 1),
      bucket_eq_nil_of (show 2 ≠ 3 by decide) (hmem 3),
      bucket_eq_nil_of (show 2 ≠ 4 by decide) (hmem 4)]
    simp
  · rw [bucket_eq_self_of (hmem 3), bucket_eq_nil_of (show 3 ≠ 0 by decide) (hmem 0),
      bucket_eq_nil_of (show 3 ≠ 1 by decide) (hmem 1),
      bucket_eq_nil_of (show 3 ≠ 2 by decide) (hmem 2),
      bucket_eq_nil_of (show 3 ≠ 4 by decide) (hmem 4)]
    simp
  · rw [bucket_eq_self_of (hmem 4), bucket_eq_nil_of (show 4 ≠ 0 by decide) (hmem 0),
      bucket_eq_nil_of (show 4 ≠ 1 by decide) (hmem 1),
      bucket_eq_nil_of (show 4 ≠ 2 by decide) (hmem 2),
      bucket_eq_nil_of (show 4 ≠ 3 by decide) (hmem 3)]
    simp

theorem sortedImportsOf_idem (l : List ImportStatement) :
    sortedImportsOf (sortedImportsOf l) = sortedImportsOf l := by
  rw [sortedImportsOf_eq (sortedImportsOf l)]
  rw [bucket_sortedImportsOf l 0 (by decide), bucket_sortedImportsOf l 1 (by decide),
    bucket_sortedImportsOf l 2 (by decide), bucket_sortedImportsOf l 3 (by decide),
    bucket_sortedImportsOf l 4 (by decide)]
  rw [sortGroup_of_sorted (sortGroup_sorted _), sortGroup_of_sorted (sortGroup_sorted _),
    sortGroup_of_sorted (sortGroup_sorted _), sortGroup_of_sorted (sortGroup_sorted _),
    sortGroup_of_sorted (sortGroup_sorted _)]
  rw [sortedImportsOf_eq l]

theorem firstMismatch_self (l : List ImportStatement) : firstMismatch l l = none := by
  induction l with
  | nil => rfl
  | cons a as ih => simp [firstMismatch, ih]

theorem firstMismatch_eq_none_iff (o canon : List ImportStatement) :
    firstMismatch o canon = none ↔ ∀ i, i < o.length → o[i]? = canon[i]? := by
  induction o generalizing canon with
  | nil => simp [firstMismatch]
  | cons a as ih =>
    cases canon with
    | nil =>
      simp only [firstMismatch]
      constructor
      · intro h
        exact absurd h (by simp)
      · intro h
        have := h 0 (by simp)
        simp at this
    | cons b bs =>
      by_cases hab : a = b
      · subst hab
        have hstep : firstMismatch (a :: as) (a :: bs) = (firstMismatch as bs).map (· + 1) := by
          simp [firstMismatch]
        rw [hstep, Option.map_eq_none', ih bs]
        constructor
        · intro h i hi
          cases i with
          | zero => simp
          | succ n =>
            simp only [List.getElem?_cons_succ]
            exact h n (by simpa using hi)
        · intro h i hi
          have := h (i + 1) (by simpa using hi)
          simpa using this
      · have hstep : firstMismatch (a :: as) (b :: bs) = some 0 := by
          simp [firstMismatch, hab]
        rw [hstep]
        constructor
        · intro h
          exact absurd h (by simp)
        · intro h
          have := h 0 (by simp)
          simp [hab] at this

theorem firstMismatch_eq_some (o canon : List ImportStatement) (i : Nat)
    (h : firstMismatch o canon = some i) :
    i < o.length ∧ o[i]? ≠ canon[i]? ∧ ∀ j, j < i → o[j]? = canon[j]? := by
  induction o generalizing canon i with
  | nil => simp [firstMismatch] at h
  | cons a as ih =>
    cases canon with
    | nil =>
      have hi : i = 0 := by simpa [firstMismatch] using h.symm
      subst hi
      refine ⟨by simp, by simp, fun j hj => absurd hj (by omega)⟩
    | cons b bs =>
      by_cases hab : a = b
      · subst hab
        have hstep : firstMismatch (a :: as) (a :: bs) = (firstMismatch as bs).map (· + 1) := by
          simp [firstMismatch]
        rw [hstep] at h
        rcases Option.map_eq_some'.mp h with ⟨n, hn, hi⟩
        subst hi
        obtain ⟨h1, h2, h3⟩ := ih bs n hn
        refine ⟨by simpa using h1, by simpa using h2, ?_⟩
        intro j hj
        cases j with
        | zero => simp
        | succ m =>
          simp only [List.getElem?_cons_succ]
          exact h3 m (by omega)
      · have hstep : firstMismatch (a :: as) (b :: bs) = some 0 := by
          simp [firstMismatch, hab]
        rw [hstep] at h
        have hi : i = 0 := by simpa using h.symm
        subst hi
        refine ⟨by simp, by simpa using hab, fun j hj => absurd hj (by omega)⟩

theorem analyze_eq_match (l : List ImportStatement) :
    analyze l =
      if l.length = 0 then none
      else
        match firstMismatch l (sortedImportsOf l) with
        | none => none
        | some i =>
          some
            { node := l.getD i default
              message := "Imports are not sorted correctly."
              rangeStart := (l.headD default).rangeStart
              rangeEnd := (l.getLastD default).rangeEnd
              fixText := generateFixedCode (sortedImportsOf l) } := rfl

theorem count_bucket (a : ImportStatement) (i : Nat) (l : List ImportStatement) :
    (bucket i l).count a = if getGroupType a = some i then l.count a else 0 := by
  unfold bucket
  by_cases hp : getGroupType a = some i
  · rw [if_pos hp, List.count_filter (by simp [hp])]
  · rw [if_neg hp]
    refine List.count_eq_zero.mpr ?_
    intro hmem
    rcases List.mem_filter.mp hmem with ⟨-, hpa⟩
    exact hp (by simpa using hpa)

theorem pair_sublist_of_lt {α : Type} (l : List α) (i j : Nat) (hij : i < j)
    (hj : j < l.length) (hi : i < l.length) :
    List.Sublist [l[i], l[j]] l := by
  have hdrop : l.drop i = l[i] :: l.drop (i + 1) := (List.getElem_cons_drop l i hi).symm
  have hj2 : j - (i + 1) < (l.drop (i + 1)).length := by
    rw [List.length_drop]
    omega
  have hmem : l[j] ∈ l.drop (i + 1) := by
    have heq : (l.drop (i + 1))[j - (i + 1)] = l[j] := by
      rw [List.getElem_drop]
      congr 1
      omega
    rw [← heq]
    exact List.getElem_mem hj2
  have h1 : List.Sublist [l[i], l[j]] (l.drop i) := by
    rw [hdrop]
    exact (List.singleton_sublist.mpr hmem).cons₂ _
  exact h1.trans (List.drop_sublist i l)

theorem getGroupType_eq_zero_iff (s : ImportStatement) :
    getGroupType s = some 0 ↔ isThirdParty s.sourcePath = true := by
  unfold getGroupType
  split_ifs <;> simp_all

theorem isThirdParty_iff (p : String) :
    isThirdParty p = true ↔
      ∃ ch rest, p.data = ch :: rest ∧ ch ≠ '.' ∧ ch ≠ '/' ∧ ch ≠ '@' := by
  unfold isThirdParty
  cases hdata : p.data with
  | nil => simp
  | cons ch rest =>
    constructor
    · intro h
      refine ⟨ch, rest, rfl, ?_, ?_, ?_⟩ <;>
        · intro hc
          subst hc
          simp at h
    · rintro ⟨ch2, rest2, heq, h1, h2, h3⟩
      have hch : ch2 = ch := by
        have := heq
        injection this with hc _
        exact hc.symm
      subst hch
      simp [h1, h2, h3]

theorem bucket_filter_ne (l : List ImportStatement) (s : ImportStatement)
    (hs : getGroupType s = none) (i : Nat) :
    bucket i (l.filter (fun x => x ≠ s)) = bucket i l := by
  unfold bucket
  rw [List.filter_filter]
  apply List.filter_congr
  intro x hx
  by_cases hxs : x = s
  · subst hxs
    simp [hs]
  · simp [hxs]

theorem genStep_foldl (rest : List ImportStatement) (prev : Option Nat) (code : String)
    (n : Nat) (hn : n ≠ 0) :
    (rest.foldl genStep (code, some prev, n)).1 = code ++ renderSpecRest prev rest := by
  induction rest generalizing prev code n with
  | nil => simp [renderSpecRest, String.append_empty]
  | cons node rest ih =>
    rw [List.foldl_cons]
    have hstep : genStep (code, some prev, n) node =
        ((if prev ≠ getGroupType node then code ++ "\n" else code) ++ node.text ++ "\n",
          some (getGroupType node), n + 1) := by
      unfold genStep
      by_cases hpg : prev = getGroupType node <;> simp [hpg, hn]
    rw [hstep, ih (getGroupType node) _ (n + 1) (Nat.succ_ne_zero n)]
    rw [renderSpecRest]
    by_cases hpg : getGroupType node ≠ prev
    · rw [if_pos hpg, if_pos (Ne.symm hpg)]
      simp [String.append_assoc]
    · rw [if_neg hpg, if_neg (fun hc => hpg (Ne.symm hc))]
      simp [String.append_assoc, String.empty_append]

/-- C1 counterexample: the import path "./x" starts with a dot and a slash yet
`getGroupType` assigns group index 3 (multi-dot-relative), not index 2
(single-dot-relative): `isSingleDotRelative` requires a non-dot, non-slash
character right after the leading dot, so it rejects "./x". -/
theorem claim1_counterexample :
    exDotX.sourcePath.data = '.' :: '/' :: ['x'] ∧
      getGroupType exDotX = some 3 ∧ ¬ getGroupType exDotX = some 2 := by
  refine ⟨by decide, by decide, by decide⟩

/-- C1 (amended): every import whose sourcePath starts with "./" is assigned
the category multi-dot-relative (group index 3), not single-dot-relative
(index 2); index 2 only matches a leading dot followed by a character that is
neither a dot nor a slash. -/
theorem claim1_dotSlash_multiDot (s : ImportStatement) (rest : List Char)
    (h : s.sourcePath.data = '.' :: '/' :: rest) :
    getGroupType s = some 3 := by
  unfold getGroupType isThirdParty isAtImport isSingleDotRelative isMultiDotRelative
  rw [h]
  rfl

theorem claim1_dotSlash_multiDot_witness : getGroupType exDotX = some 3 :=
  claim1_dotSlash_multiDot exDotX ['x'] (by decide)

/-- C2 counterexample: the path "/abs" starts with '/', hence with none of
'.', '..' or '@', yet the classifier does not assign third-party (it assigns
no category at all): `isThirdParty`'s regex also excludes a leading '/'
and requires a nonempty path. -/
theorem claim2_counterexample :
    exAbs.sourcePath.data.head? = some '/' ∧ '/' ≠ '.' ∧ '/' ≠ '@' ∧
      ¬ getGroupType exAbs = some 0 ∧ getGroupType exAbs = none := by
  refine ⟨by decide, by decide, by decide, by decide, by decide⟩

/-- C2 (amended): the classifier assigns third-party (group index 0) iff the
sourcePath is nonempty and its first character is none of '.', '/', '@'; an
empty path or a path starting with '/' is not third-party. -/
theorem claim2_thirdParty_iff (s : ImportStatement) :
    getGroupType s = some 0 ↔
      ∃ ch rest, s.sourcePath.data = ch :: rest ∧ ch ≠ '.' ∧ ch ≠ '/' ∧ ch ≠ '@' :=
  (getGroupType_eq_zero_iff s).trans (isThirdParty_iff s.sourcePath)

/-- C3 counterexample: a single import whose path matches no predicate and
that is not type-only ("/abs") is dropped from every group, so the comparison
sees `sortedImports[0] === undefined` and reports a violation: a one-import
list is NOT always compliant. -/
theorem claim3_counterexample :
    (getGroupType exAbs = none ∧ ¬ exAbs.importKind = "type") ∧
      ¬ analyze [exAbs] = none := by
  refine ⟨⟨by decide, by decide⟩, by decide⟩

/-- C3 (amended): the empty import list is always compliant, and a one-import
list is compliant provided its statement matches at least one category
(path-based or type-only); an unclassifiable singleton is reported instead. -/
theorem claim3_empty_singleton (s : ImportStatement) (hs : (getGroupType s).isSome) :
    analyze ([] : List ImportStatement) = none ∧ analyze [s] = none := by
  have hcanon : sortedImportsOf [s] = [s] := by
    rcases getGroupType_cases s with h | h | h | h | h | h
    · rw [h] at hs
      simp at hs
    all_goals
      rw [sortedImportsOf_eq]
      simp [bucket, List.filter_cons, h, sortGroup, List.insertionSort, List.orderedInsert]
  refine ⟨rfl, ?_⟩
  rw [analyze_eq_match, hcanon]
  simp [firstMismatch_self]

theorem claim3_empty_singleton_witness :
    analyze ([] : List ImportStatement) = none ∧ analyze [exReact] = none :=
  claim3_empty_singleton exReact (by decide)

/-- C4: a statement whose path matches none of the four predicates and that is
not type-only is placed in no group, never occurs in CanonicalOrder, and the
generated replacement text is exactly the text generated with that statement
removed from the input: it is never emitted. -/
theorem claim4_unclassifiable_dropped (l : List ImportStatement) (s : ImportStatement)
    (hmem : s ∈ l) (hs : getGroupType s = none) :
    (∀ g ∈ groupImports l, s ∉ g) ∧ s ∉ sortedImportsOf l ∧
      generateFixedCode (sortedImportsOf l) =
        generateFixedCode (sortedImportsOf (l.filter (fun x => x ≠ s))) := by
  have hnot : ∀ i : Nat, s ∉ bucket i l := by
    intro i hin
    have h2 := (mem_bucket.mp hin).2
    rw [hs] at h2
    cases h2
  refine ⟨?_, ?_, ?_⟩
  · intro g hg
    rw [groupImports_eq] at hg
    have hg2 := (List.mem_filter.mp hg).1
    simp only [List.mem_cons, List.not_mem_nil, or_false] at hg2
    rcases hg2 with rfl | rfl | rfl | rfl | rfl
    exacts [hnot 0, hnot 1, hnot 2, hnot 3, hnot 4]
  · intro hin
    rw [sortedImportsOf_eq] at hin
    simp only [List.mem_append] at hin
    rcases hin with hx | hx | hx | hx | hx <;> exact hnot _ (mem_sortGroup.mp hx)
  · have hb : ∀ i, bucket i (l.filter (fun x => x ≠ s)) = bucket i l :=
      fun i => bucket_filter_ne l s hs i
    have heq : sortedImportsOf (l.filter (fun x => x ≠ s)) = sortedImportsOf l := by
      rw [sortedImportsOf_eq, sortedImportsOf_eq, hb 0, hb 1, hb 2, hb 3, hb 4]
    rw [heq]

theorem claim4_unclassifiable_dropped_witness :
    (∀ g ∈ groupImports [exReact, exAbs], exAbs ∉ g) ∧
      exAbs ∉ sortedImportsOf [exReact, exAbs] ∧
      generateFixedCode (sortedImportsOf [exReact, exAbs]) =
        generateFixedCode (sortedImportsOf
          (([exReact, exAbs]).filter (fun x => x ≠ exAbs))) :=
  claim4_unclassifiable_dropped [exReact, exAbs] exAbs (by decide) (by decide)

/-- C5: CanonicalOrder is a fixed point of the reordering: analyzing the
statement sequence produced by the suggested fix always yields compliant. -/
theorem claim5_fix_idempotent (l : List ImportStatement) :
    analyze (sortedImportsOf l) = none := by
  rw [analyze_eq_match]
  by_cases h : (sortedImportsOf l).length = 0
  · rw [if_pos h]
  · rw [if_neg h, sortedImportsOf_idem, firstMismatch_self]

/-- C6: a violation is reported iff some position of the original list differs
from CanonicalOrder (a missing canonical entry counts as a difference, as in
the JavaScript `!==` against `undefined`); the single diagnostic (the return
type `Option Report` allows at most one) is anchored at the first statement
whose position differs. -/
theorem claim6_violation_iff (l : List ImportStatement) :
    ((analyze l).isSome ↔ ∃ i, i < l.length ∧ l[i]? ≠ (sortedImportsOf l)[i]?) ∧
      ∀ r, analyze l = some r →
        ∃ i, i < l.length ∧ l[i]? ≠ (sortedImportsOf l)[i]? ∧
          (∀ j, j < i → l[j]? = (sortedImportsOf l)[j]?) ∧ r.node = l.getD i default := by
  by_cases hl : l.length = 0
  · have hnil : l = [] := List.length_eq_zero.mp hl
    subst hnil
    constructor
    · constructor
      · intro h
        rw [analyze_eq_match] at h
        simp at h
      · rintro ⟨i, hi, -⟩
        simp at hi
    · intro r hr
      rw [analyze_eq_match] at hr
      simp at hr
  · rcases hm : firstMismatch l (sortedImportsOf l) with _ | i
    · have hall := (firstMismatch_eq_none_iff l (sortedImportsOf l)).mp hm
      have hA : analyze l = none := by
        rw [analyze_eq_match, if_neg hl, hm]
      constructor
      · rw [hA]
        simp only [Option.isSome_none, Bool.false_eq_true, false_iff]
        rintro ⟨i, hi, hne⟩
        exact hne (hall i hi)
      · intro r hr
        rw [hA] at hr
        cases hr
    · obtain ⟨h1, h2, h3⟩ := firstMismatch_eq_some l (sortedImportsOf l) i hm
      have hA : analyze l = some
          { node := l.getD i default
            message := "Imports are not sorted correctly."
            rangeStart := (l.headD default).rangeStart
            rangeEnd := (l.getLastD default).rangeEnd
            fixText := generateFixedCode (sortedImportsOf l) } := by
        rw [analyze_eq_match, if_neg hl, hm]
      constructor
      · rw [hA]
        simp only [Option.isSome_some, true_iff]
        exact ⟨i, h1, h2⟩
      · intro r hr
        rw [hA] at hr
        have hr2 := Option.some.inj hr
        refine ⟨i, h1, h2, h3, ?_⟩
        rw [← hr2]

theorem claim6_violation_iff_witness :
    (analyze exBadList).isSome ↔
      ∃ i, i < exBadList.length ∧ exBadList[i]? ≠ (sortedImportsOf exBadList)[i]? :=
  (claim6_violation_iff exBadList).1

/-- C7: stability of ties — two statements of the same category with
equal-length rendered text keep their input relative order in CanonicalOrder
(the earlier one still precedes the later one, witnessed as a sublist). -/
theorem claim7_stable_ties (l : List ImportStatement) (i j : Nat) (hi : i < l.length)
    (hj : j < l.length) (hij : i < j) (k : Nat)
    (hki : getGroupType l[i] = some k) (hkj : getGroupType l[j] = some k)
    (hlen : (l[i]).text.length = (l[j]).text.length) :
    List.Sublist [l[i], l[j]] (sortedImportsOf l) := by
  have hpair : List.Sublist [l[i], l[j]] l := pair_sublist_of_lt l i j hij hj hi
  have hbucket : List.Sublist [l[i], l[j]] (bucket k l) := by
    have hf := hpair.filter (fun n => getGroupType n == some k)
    have hfix : (([l[i], l[j]]).filter (fun n => getGroupType n == some k)) = [l[i], l[j]] := by
      simp [List.filter_cons, hki, hkj]
    rw [hfix] at hf
    exact hf
  have hsorted : List.Sublist [l[i], l[j]] (sortGroup (bucket k l)) :=
    List.pair_sublist_insertionSort (show lenLE l[i] l[j] from hlen.le) hbucket
  have hk5 : k < 5 := by
    rcases getGroupType_cases l[i] with h | h | h | h | h | h <;> rw [h] at hki
    · cases hki
    all_goals
      have := Option.some.inj hki
      omega
  have hseg : List.Sublist (sortGroup (bucket k l)) (sortedImportsOf l) := by
    rw [sortedImportsOf_eq]
    interval_cases k
    · exact List.sublist_append_left _ _
    · exact (List.sublist_append_left _ _).trans (List.sublist_append_right _ _)
    · exact ((List.sublist_append_left _ _).trans (List.sublist_append_right _ _)).trans
        (List.sublist_append_right _ _)
    · exact (((List.sublist_append_left _ _).trans (List.sublist_append_right _ _)).trans
        (List.sublist_append_right _ _)).trans (List.sublist_append_right _ _)
    · exact (((List.sublist_append_right _ _).trans (List.sublist_append_right _ _)).trans
        (List.sublist_append_right _ _)).trans (List.sublist_append_right _ _)
  exact hsorted.trans hseg

theorem claim7_stable_ties_witness :
    List.Sublist [exReact, exRedux] (sortedImportsOf [exReact, exRedux]) :=
  claim7_stable_ties [exReact, exRedux] 0 1 (by decide) (by decide) (by decide) 0
    (by decide) (by decide) (by decide)

/-- C8: the generated replacement text equals the specification rendering:
each rendered text followed by a line break, exactly one blank line before
each statement whose category differs from its predecessor's (never before
the first statement, never between same-category statements), with the final
text trimmed. -/
theorem claim8_blank_lines (sorted : List ImportStatement) :
    generateFixedCode sorted = renderSpec sorted := by
  cases sorted with
  | nil => rfl
  | cons node rest =>
    have hrs : renderSpec (node :: rest) =
        trimJS (node.text ++ "\n" ++ renderSpecRest (getGroupType node) rest) := rfl
    rw [hrs]
    unfold generateFixedCode
    rw [List.foldl_cons]
    have hfirst : genStep ("", none, 0) node =
        (node.text ++ "\n", some (getGroupType node), 1) := by
      unfold genStep
      simp [String.empty_append]
    rw [hfirst, genStep_foldl rest (getGroupType node) (node.text ++ "\n") 1 one_ne_zero,
      String.append_assoc]

/-- C9: the reported fix covers exactly the byte range from the start of the
first original import to the end of the last one, and splicing any
replacement into that range leaves every part of the file outside the range
unchanged. -/
theorem claim9_replacement_range (l : List ImportStatement) (r : Report)
    (h : analyze l = some r) :
    r.rangeStart = (l.headD default).rangeStart ∧
      r.rangeEnd = (l.getLastD default).rangeEnd ∧
      ∀ (front mid tail replacement : List Char),
        front.length = r.rangeStart → front.length + mid.length = r.rangeEnd →
        applyFix (front ++ mid ++ tail) r.rangeStart r.rangeEnd replacement =
          front ++ replacement ++ tail := by
  rw [analyze_eq_match] at h
  by_cases hl : l.length = 0
  · rw [if_pos hl] at h
    cases h
  · rw [if_neg hl] at h
    rcases hm : firstMismatch l (sortedImportsOf l) with _ | i <;> rw [hm] at h
    · cases h
    · have hr := Option.some.inj h
      subst hr
      refine ⟨rfl, rfl, ?_⟩
      intro front mid tail replacement hf hm2
      unfold applyFix
      rw [← hf, ← hm2]
      have htake : List.take front.length (front ++ (mid ++ tail)) = front :=
        List.take_left front (mid ++ tail)
      have hdrop : List.drop (front.length + mid.length) (front ++ (mid ++ tail)) = tail := by
        rw [← List.length_append front mid, ← List.append_assoc, List.drop_left]
      rw [List.append_assoc front mid tail, htake, hdrop, List.append_assoc]

theorem claim9_replacement_range_witness :
    ∃ r, analyze exBadList = some r ∧
      (r.rangeStart = (exBadList.headD default).rangeStart ∧
        r.rangeEnd = (exBadList.getLastD default).rangeEnd ∧
        ∀ (front mid tail replacement : List Char),
          front.length = r.rangeStart → front.length + mid.length = r.rangeEnd →
          applyFix (front ++ mid ++ tail) r.rangeStart r.rangeEnd replacement =
            front ++ replacement ++ tail) := by
  rcases ho : analyze exBadList with _ | r
  · exact absurd ho (by decide)
  · exact ⟨r, rfl, claim9_replacement_range exBadList r ho⟩

/-- C10: when every input statement matches some category, CanonicalOrder is a
permutation of the input list: every statement appears exactly once and
nothing else appears. -/
theorem claim10_permutation (l : List ImportStatement)
    (h : ∀ s ∈ l, (getGroupType s).isSome) :
    (sortedImportsOf l).Perm l := by
  have hstep : (sortedImportsOf l).Perm
      (bucket 0 l ++ (bucket 1 l ++ (bucket 2 l ++ (bucket 3 l ++ bucket 4 l)))) := by
    rw [sortedImportsOf_eq]
    exact (sortGroup_perm _).append ((sortGroup_perm _).append ((sortGroup_perm _).append
      ((sortGroup_perm _).append (sortGroup_perm _))))
  refine hstep.trans ?_
  rw [List.perm_iff_count]
  intro a
  simp only [List.count_append]
  by_cases ha : a ∈ l
  · have hsome := h a ha
    rcases getGroupType_cases a with hg | hg | hg | hg | hg | hg
    · rw [hg] at hsome
      simp at hsome
    all_goals simp [count_bucket, hg]
  · have h0 : l.count a = 0 := List.count_eq_zero_of_not_mem ha
    simp [count_bucket, h0]

theorem claim10_permutation_witness :
    (sortedImportsOf [exRel, exReact, exScoped]).Perm [exRel, exReact, exScoped] :=
  claim10_permutation [exRel, exReact, exScoped] (by decide)
